import Mathlib

/-!
Verification of the `sqltraced` DSN-normalization engine and the SQL
tracing verification harness of dd-trace-go
(`tracer/contrib/database/sqltraced/parse.go` and its test harness).

Go maps `map[string]string` are embedded as association lists
`List (String × String)` whose keys occur at most once; a possibly-nil
Go map value is `Option (List (String × String))`, with `none` standing
for the nil map. Iteration order of a Go map is arbitrary, so theorems
about `normalize` are stated up to permutation of the input list.
-/

namespace SqlTraced

/-- A Go `map[string]string` variable, which may hold the nil map. -/
abbrev StrMap := Option (List (String × String))

/-- Reading a key from an association list (Go `m[k]`). -/
def mapGet (m : List (String × String)) (k : String) : Option String :=
  List.lookup k m

/-- Go `m[k] = v`: replace the entry for `k` if present, else append it. -/
def mapSet (m : List (String × String)) (k v : String) : List (String × String) :=
  match m with
  | [] => [(k, v)]
  | (k', v') :: rest => if k' = k then (k, v) :: rest else (k', v') :: mapSet rest k v

/-- Go `delete(m, k)`: remove every entry for `k`. -/
def mapDelete (m : List (String × String)) (k : String) : List (String × String) :=
  m.filter (fun p => p.1 ≠ k)

/-- `normalizeKey` from `parse.go`: maps a raw DSN attribute name to its
canonical tag key; the Go `(string, bool)` return is an `Option`. -/
def normalizeKey (k : String) : Option String :=
  if k = "user" then some "db.user"
  else if k = "application_name" then some "db.application"
  else if k = "dbname" then some "db.name"
  else if k = "host" ∨ k = "port" then some ("out." ++ k)
  else none

/-- The loop body of `normalize`: keep the pairs whose key is recognized,
rebound to the canonical key. -/
def normalizeList (meta : List (String × String)) : List (String × String) :=
  meta.filterMap (fun p => (normalizeKey p.1).map (fun nk => (nk, p.2)))

/-- `normalize` from `parse.go`: allocates a fresh map (`some`, never nil)
and copies across the recognized attributes; ranging over a nil map does
nothing. -/
def normalize (meta : StrMap) : StrMap :=
  some (normalizeList (meta.getD []))

/-- `parseDSN` from `parse.go`. The driver-specific parsers
`parsedsn.Postgres` and `parsedsn.MySQL` live in a package outside the
sampled sources, so they are taken as parameters: each returns a raw
attribute map (possibly nil) and a Go error (`none` is nil). For a driver
identifier outside the switch, `meta` and `err` keep their zero values
(nil map, nil error); in every case `normalize` is applied to `meta`. -/
def parseDSN (pg my : String → StrMap × Option String)
    (driverType dsn : String) : StrMap × Option String :=
  let r : StrMap × Option String :=
    if driverType = "*pq.Driver" then pg dsn
    else if driverType = "*mysql.MySQLDriver" then my dsn
    else (none, none)
  (normalize r.1, r.2)

/-! ## Span model and traced handle lifecycle

The traced driver (`OpenTraced`, `TracedConn`, ...) and the `tracer`
package live outside the sampled sources; only the verification harness
(`testDB`, `testStatement`, `testTransaction`) is in `parse.go`'s file.
The missing operations are modelled from the spec (sections 4.2 and 4.3)
and the harness is embedded from the source on top of them. -/

/-- Modelled from the spec: a span record — operation name, service,
resource name, metadata mapping, trace identifier, span identifier and a
weak parent reference (`0` when the span is a trace root). -/
structure Span where
  name : String
  service : String
  resource : String
  meta : List (String × String)
  traceID : Nat
  spanID : Nat
  parentID : Nat
deriving Repr, DecidableEq

/-- Modelled from the spec: tracer state — a counter for fresh span
identifiers and the buffer of finished spans awaiting a flush. -/
structure TracerState where
  nextID : Nat
  buffer : List Span
deriving Repr, DecidableEq

/-- Modelled from the spec: `tracer.NewRootSpan` — a span with no parent
becomes a new trace root (its trace identifier is its own fresh id). -/
def newRootSpan (s : TracerState) (name service resource : String) :
    Span × TracerState :=
  ({ name := name, service := service, resource := resource, meta := []
     traceID := s.nextID, spanID := s.nextID, parentID := 0 },
   { s with nextID := s.nextID + 1 })

/-- Modelled from the spec (Span Factory, section 4.2): if the context
carries an ambient parent span the new span shares its trace identifier
and points to it as parent; otherwise the span starts a new trace. -/
def startSpan (s : TracerState) (name service resource : String)
    (baseMeta : List (String × String)) (parent : Option Span) :
    Span × TracerState :=
  match parent with
  | some p =>
      ({ name := name, service := service, resource := resource
         meta := baseMeta, traceID := p.traceID, spanID := s.nextID
         parentID := p.spanID },
       { s with nextID := s.nextID + 1 })
  | none =>
      ({ name := name, service := service, resource := resource
         meta := baseMeta, traceID := s.nextID, spanID := s.nextID
         parentID := 0 },
       { s with nextID := s.nextID + 1 })

/-- Modelled from the spec: finishing a span submits it to the buffer. -/
def finishSpan (sp : Span) (s : TracerState) : TracerState :=
  { s with buffer := s.buffer ++ [sp] }

/-- Insert a span into the trace whose spans carry its trace identifier,
opening a new trace when none matches. -/
def insertSpan (groups : List (List Span)) (sp : Span) : List (List Span) :=
  match groups with
  | [] => [[sp]]
  | g :: gs =>
      if (g.head?.map Span.traceID) = some sp.traceID then (g ++ [sp]) :: gs
      else g :: insertSpan gs sp

/-- Modelled from the spec: `FlushTraces` followed by `Transport.Traces()`
— the buffered spans are grouped into traces by trace identifier,
preserving submission order, and the buffer is cleared. -/
def flushTraces (s : TracerState) : List (List Span) × TracerState :=
  (s.buffer.foldl insertSpan [], { s with buffer := [] })

/-- The traced handle of the harness (`DB` in the source): the driver
name, the service, and the connection descriptor tags fixed at open. -/
structure DB where
  name : String
  service : String
  meta : List (String × String)

/-- A Traced Statement returned by `Prepare`: it keeps the original
statement text. -/
structure Stmt where
  query : String

/-- A Traced Transaction: it keeps the ambient parent span supplied to
`BeginTx` via the context (`none` for a plain `Begin`). -/
structure Tx where
  parent : Option Span

/-- Modelled from the spec: one traced handle operation — start a span of
the given resource with the connection descriptor's tags plus the
operation-specific tags, honoring an ambient parent, and finish it. -/
def opSpan (db : DB) (resource : String) (extra : List (String × String))
    (parent : Option Span) (s : TracerState) : TracerState :=
  let base := extra.foldl (fun m p => mapSet m p.1 p.2) db.meta
  let r := startSpan s (db.name ++ ".query") db.service resource base parent
  finishSpan r.1 r.2

/-- Modelled from the spec: `db.Ping` — one connection-check span with the
fixed resource label `Ping` and no extra metadata. -/
def opPing (db : DB) (s : TracerState) : TracerState :=
  opSpan db "Ping" [] none s

/-- Modelled from the spec: `db.Query q` — one span, resource the literal
statement text, statement text also under the `sql.query` tag. -/
def opQuery (db : DB) (q : String) (s : TracerState) : TracerState :=
  opSpan db q [("sql.query", q)] none s

/-- Modelled from the spec: `db.Prepare q` — one span exactly as for a
query, returning a Traced Statement bound to the statement text. -/
def opPrepare (db : DB) (q : String) (s : TracerState) : Stmt × TracerState :=
  (⟨q⟩, opSpan db q [("sql.query", q)] none s)

/-- Modelled from the spec: `stmt.Exec args` — one span whose resource and
statement-text tag are the original prepared text; the arguments supplied
at execution time play no part. -/
def opStmtExec (db : DB) (stmt : Stmt) (args : List String)
    (s : TracerState) : TracerState :=
  opSpan db stmt.query [("sql.query", stmt.query)] none s

/-- Modelled from the spec: `db.Begin` — one span with the fixed resource
label `Begin`; no ambient parent. -/
def opBegin (db : DB) (s : TracerState) : Tx × TracerState :=
  (⟨none⟩, opSpan db "Begin" [] none s)

/-- Modelled from the spec: `db.BeginTx ctx` — one `Begin` span that is a
child of the ambient parent carried by the context, if any; the returned
transaction remembers that parent. -/
def opBeginTx (db : DB) (parent : Option Span) (s : TracerState) :
    Tx × TracerState :=
  (⟨parent⟩, opSpan db "Begin" [] parent s)

/-- Modelled from the spec: `tx.ExecContext ctx q` — one span as for a
direct exec, a sibling child of the transaction's ambient parent. -/
def opExecContext (db : DB) (tx : Tx) (q : String) (s : TracerState) :
    TracerState :=
  opSpan db q [("sql.query", q)] tx.parent s

/-- Modelled from the spec: `tx.Rollback` — one span with the fixed
resource label `Rollback`, parented like the begin span. -/
def opRollback (db : DB) (tx : Tx) (s : TracerState) : TracerState :=
  opSpan db "Rollback" [] tx.parent s

/-- Modelled from the spec: `tx.Commit` — one span with the fixed resource
label `Commit`, parented like the begin span. -/
def opCommit (db : DB) (tx : Tx) (s : TracerState) : TracerState :=
  opSpan db "Commit" [] tx.parent s

/-! ## The verification harness script, embedded from the source -/

/-- The query literal of `testDB`. -/
def dbQuery : String := "select id, name, population from city limit 5"

/-- The statement of `testStatement`: the placeholder is chosen by the
driver name, lower-cased, as in the source switch. -/
def stmtQuery (dbName : String) : String :=
  if dbName.toLower = "postgres" then "INSERT INTO city(name) VALUES($1)"
  else if dbName.toLower = "mysql" then "INSERT INTO city(name) VALUES(?)"
  else "INSERT INTO city(name) VALUES(%s)"

/-- The query literal of `testTransaction`. -/
def txQuery : String := "INSERT INTO city(name) VALUES('New York')"

/-- `testDB` from the source: Ping then Query, flushing and capturing the
traces after each call. -/
def testDB (db : DB) (s0 : TracerState) :
    List (List (List Span)) × TracerState :=
  let s1 := opPing db s0
  let f1 := flushTraces s1
  let s2 := opQuery db dbQuery f1.2
  let f2 := flushTraces s2
  ([f1.1, f2.1], f2.2)

/-- `testStatement` from the source: Prepare then execute the returned
statement with argument `"New York"`, flushing after each call. -/
def testStatement (db : DB) (s0 : TracerState) :
    List (List (List Span)) × TracerState :=
  let q := stmtQuery db.name
  let r1 := opPrepare db q s0
  let f1 := flushTraces r1.2
  let s2 := opStmtExec db r1.1 ["New York"] f1.2
  let f2 := flushTraces s2
  ([f1.1, f2.1], f2.2)

/-- `testTransaction` from the source: Begin then Rollback, each flushed;
then a fresh root span `test.parent` is put in the context, and
BeginTx, ExecContext and Commit run before a single flush. -/
def testTransaction (db : DB) (s0 : TracerState) :
    List (List (List Span)) × TracerState :=
  let r1 := opBegin db s0
  let f1 := flushTraces r1.2
  let s2 := opRollback db r1.1 f1.2
  let f2 := flushTraces s2
  let pr := newRootSpan f2.2 "test.parent" "test" "parent"
  let r2 := opBeginTx db (some pr.1) pr.2
  let s3 := opExecContext db r2.1 txQuery r2.2
  let s4 := opCommit db r2.1 s3
  let f3 := flushTraces s4
  ([f1.1, f2.1, f3.1], f3.2)

/-- `AllSQLTests` from the source: the three phases in order; the result
collects the captured traces of every flush, in order. -/
def allSQLTests (db : DB) (s0 : TracerState) : List (List (List Span)) :=
  let r1 := testDB db s0
  let r2 := testStatement db r1.2
  let r3 := testTransaction db r2.2
  r1.1 ++ r2.1 ++ r3.1

/-- The begin(ambient parent)+exec+commit scenario of `testTransaction`,
on its own, for an arbitrary ambient parent span `P`. -/
def txScenario (db : DB) (P : Span) (s0 : TracerState) : List (List Span) :=
  let r := opBeginTx db (some P) s0
  let s1 := opExecContext db r.1 txQuery r.2
  let s2 := opCommit db r.1 s1
  (flushTraces s2).1

/-- The harness's per-step bookkeeping on the expected-span template
(`expectedSpan`), embedded from the source. Modelled from the spec:
`tracer.CopySpan` (outside the sampled sources) shares the metadata map,
so `SetMeta("sql.query", q)` on the comparison copy also writes the key
into the template; `delete(expectedSpan.Meta, "sql.query")` then clears
the accumulated transient key before the next step. -/
def templateStep (tpl : Span) (q : String) : Span :=
  { tpl with meta := mapDelete (mapSet tpl.meta "sql.query" q) "sql.query" }

/-! ## Helper lemmas -/

theorem mapGet_mapSet_self (m : List (String × String)) (k v : String) :
    mapGet (mapSet m k v) k = some v := by
  induction m with
  | nil => simp [mapGet, mapSet, List.lookup_cons]
  | cons p rest ih =>
      obtain ⟨k', v'⟩ := p
      by_cases h : k' = k
      · simp [mapGet, mapSet, h, List.lookup_cons]
      · simpa [mapGet, mapSet, h, List.lookup_cons,
          beq_false_of_ne (Ne.symm h)] using ih

theorem mapGet_mapSet_ne (m : List (String × String)) (k v k' : String)
    (h : k' ≠ k) : mapGet (mapSet m k v) k' = mapGet m k' := by
  induction m with
  | nil => simp [mapGet, mapSet, List.lookup_cons, beq_false_of_ne h]
  | cons p rest ih =>
      obtain ⟨a, b⟩ := p
      by_cases ha : a = k
      · subst ha
        simp [mapGet, mapSet, List.lookup_cons, beq_false_of_ne h]
      · by_cases hb : k' = a
        · simp [mapGet, mapSet, ha, List.lookup_cons, hb]
        · simpa [mapGet, mapSet, ha, List.lookup_cons,
            beq_false_of_ne hb] using ih

theorem mapGet_mapDelete_self (m : List (String × String)) (k : String) :
    mapGet (mapDelete m k) k = none := by
  induction m with
  | nil => simp [mapGet, mapDelete]
  | cons p rest ih =>
      obtain ⟨a, b⟩ := p
      by_cases ha : a = k
      · simpa [mapGet, mapDelete, ha] using ih
      · simpa [mapGet, mapDelete, ha, List.lookup_cons,
          beq_false_of_ne (Ne.symm ha)] using ih

theorem mapGet_mapDelete_ne (m : List (String × String)) (k k' : String)
    (h : k' ≠ k) : mapGet (mapDelete m k) k' = mapGet m k' := by
  induction m with
  | nil => simp [mapGet, mapDelete]
  | cons p rest ih =>
      obtain ⟨a, b⟩ := p
      by_cases ha : a = k
      · subst ha
        simpa [mapGet, mapDelete, List.lookup_cons,
          beq_false_of_ne h] using ih
      · by_cases hb : k' = a
        · simp [mapGet, mapDelete, ha, List.lookup_cons, hb]
        · simpa [mapGet, mapDelete, ha, List.lookup_cons,
            beq_false_of_ne hb] using ih

/-- Every successful `normalizeKey` result is a row of the tag key
mapping table. -/
theorem normalizeKey_mem_table (k nk : String) (h : normalizeKey k = some nk) :
    (k, nk) ∈ [("user", "db.user"), ("application_name", "db.application"),
      ("dbname", "db.name"), ("host", "out.host"), ("port", "out.port")] := by
  unfold normalizeKey at h
  split_ifs at h with h1 h2 h3 h4
  · subst h1; simp only [Option.some.injEq] at h; subst h; decide
  · subst h2; simp only [Option.some.injEq] at h; subst h; decide
  · subst h3; simp only [Option.some.injEq] at h; subst h; decide
  · rcases h4 with h4 | h4 <;> subst h4 <;>
      simp only [Option.some.injEq] at h <;> subst h <;> decide

/-- `normalizeKey` sends distinct accepted raw keys to distinct canonical
keys. -/
theorem normalizeKey_inj (k₁ k₂ nk : String) (h₁ : normalizeKey k₁ = some nk)
    (h₂ : normalizeKey k₂ = some nk) : k₁ = k₂ := by
  have t₁ := normalizeKey_mem_table k₁ nk h₁
  have t₂ := normalizeKey_mem_table k₂ nk h₂
  simp only [List.mem_cons, List.not_mem_nil, or_false] at t₁ t₂
  rcases t₁ with t₁ | t₁ | t₁ | t₁ | t₁ <;>
    rcases t₂ with t₂ | t₂ | t₂ | t₂ | t₂ <;>
      rw [Prod.mk.injEq] at t₁ t₂ <;>
        obtain ⟨e₁, f₁⟩ := t₁ <;> obtain ⟨e₂, f₂⟩ := t₂ <;>
          subst e₁ <;> subst e₂ <;> subst f₁ <;>
            first
            | rfl
            | exact absurd f₂ (by decide)

/-- The canonical keys of `normalizeList`'s output are the images of the
raw keys under `normalizeKey`. -/
theorem normalizeList_keys (m : List (String × String)) :
    (normalizeList m).map Prod.fst = (m.map Prod.fst).filterMap normalizeKey := by
  induction m with
  | nil => rfl
  | cons p rest ih =>
      cases hk : normalizeKey p.1 <;>
        simp [normalizeList, List.filterMap_cons, hk] at ih ⊢ <;>
          simpa [normalizeList] using ih

/-! ## Claim theorems: the metadata normalizer -/

/-- C1: `normalize` keeps exactly the raw attributes recognized by the
tag key mapping table (user ↦ db.user, application_name ↦ db.application,
dbname ↦ db.name, host ↦ out.host, port ↦ out.port), rebinds each to its
canonical key with the value unchanged, and drops everything else. -/
theorem normalize_exact_mapping (meta : List (String × String)) (nk v : String) :
    normalizeKey "user" = some "db.user" ∧
    normalizeKey "application_name" = some "db.application" ∧
    normalizeKey "dbname" = some "db.name" ∧
    normalizeKey "host" = some "out.host" ∧
    normalizeKey "port" = some "out.port" ∧
    ((nk, v) ∈ (normalize (some meta)).getD [] ↔
      ∃ k, (k, v) ∈ meta ∧ normalizeKey k = some nk) := by
  refine ⟨by decide, by decide, by decide, by decide, by decide, ?_⟩
  simp only [normalize, normalizeList, Option.getD_some]
  rw [List.mem_filterMap]
  constructor
  · rintro ⟨⟨k, w⟩, hm, hf⟩
    cases hk : normalizeKey k with
    | none => simp [hk] at hf
    | some nk' =>
        simp [hk] at hf
        exact ⟨k, by simpa [hf.2] using hm, by simp [hk, hf.1]⟩
  · rintro ⟨k, hm, hk⟩
    exact ⟨(k, v), hm, by simp [hk]⟩

/-- C4: for a driver identifier outside the supported set the switch in
`parseDSN` matches no case, so the nil raw map is normalized into a fresh
empty mapping and the error stays nil. -/
theorem parseDSN_unsupported (pg my : String → StrMap × Option String)
    (driverType dsn : String) (h1 : driverType ≠ "*pq.Driver")
    (h2 : driverType ≠ "*mysql.MySQLDriver") :
    parseDSN pg my driverType dsn = (some [], none) := by
  unfold parseDSN
  rw [if_neg h1, if_neg h2]
  rfl

/-- Witness for C4 at a concrete unsupported driver identifier. -/
theorem parseDSN_unsupported_witness :
    ("*foo.Driver" ≠ "*pq.Driver") ∧ ("*foo.Driver" ≠ "*mysql.MySQLDriver") ∧
    parseDSN (fun _ => (none, none)) (fun _ => (none, none))
      "*foo.Driver" "user=alice" = (some [], none) :=
  ⟨by decide, by decide,
    parseDSN_unsupported (fun _ => (none, none)) (fun _ => (none, none))
      "*foo.Driver" "user=alice" (by decide) (by decide)⟩

/-- C7: the normalizer is pure — equal inputs give equal outputs, and the
output of `normalize` does not depend on the iteration order of the raw
attribute map: a permutation of the input yields a permutation of the
output, hence the same mapping. (Freedom from mutation holds by
construction in this embedding: `parseDSN` and `normalize` are functions
of their arguments.) -/
theorem parseDSN_pure (pg my : String → StrMap × Option String)
    (driverType dsn : String) (m₁ m₂ : List (String × String))
    (hperm : m₁.Perm m₂) :
    parseDSN pg my driverType dsn = parseDSN pg my driverType dsn ∧
    (normalizeList m₁).Perm (normalizeList m₂) ∧
    (∀ p, p ∈ (normalize (some m₁)).getD [] ↔ p ∈ (normalize (some m₂)).getD []) := by
  refine ⟨rfl, hperm.filterMap _, fun p => ?_⟩
  show p ∈ normalizeList m₁ ↔ p ∈ normalizeList m₂
  exact (hperm.filterMap
    (fun q => (normalizeKey q.1).map (fun nk => (nk, q.2)))).mem_iff

/-- Witness for C7 at a concrete reordered attribute map. -/
theorem parseDSN_pure_witness :
    (normalizeList [("user", "u"), ("host", "h")]).Perm
      (normalizeList [("host", "h"), ("user", "u")]) :=
  (parseDSN_pure (fun _ => (none, none)) (fun _ => (none, none)) "d" "x"
    [("user", "u"), ("host", "h")] [("host", "h"), ("user", "u")]
    (by decide)).2.1

/-- C8: `normalizeKey` is injective on accepted raw attributes, the five
canonical keys are pairwise distinct, and on an input map with distinct
raw keys no two attributes collide on one canonical key in `normalize`'s
output. -/
theorem normalize_no_key_collision (m : List (String × String))
    (hnd : (m.map Prod.fst).Nodup) :
    (∀ k₁ k₂ nk, normalizeKey k₁ = some nk → normalizeKey k₂ = some nk → k₁ = k₂) ∧
    [normalizeKey "user", normalizeKey "application_name", normalizeKey "dbname",
      normalizeKey "host", normalizeKey "port"].Nodup ∧
    ((normalizeList m).map Prod.fst).Nodup := by
  refine ⟨normalizeKey_inj, by decide, ?_⟩
  rw [normalizeList_keys]
  exact List.Nodup.filterMap
    (fun a a' b hb hb' => normalizeKey_inj a a' b hb hb') hnd

/-- Witness for C8 at a concrete attribute map with distinct raw keys. -/
theorem normalize_no_key_collision_witness :
    ((normalizeList [("user", "alice"), ("host", "localhost")]).map Prod.fst).Nodup :=
  (normalize_no_key_collision [("user", "alice"), ("host", "localhost")]
    (by decide)).2.2

/-- C10: `parseDSN` always returns an allocated (non-nil) tag mapping,
and for a supported driver the parser's raw map — also on the error path
— is passed through `normalize`, with the error returned alongside. -/
theorem parseDSN_never_nil (pg my : String → StrMap × Option String)
    (driverType dsn : String) :
    (parseDSN pg my driverType dsn).1.isSome = true ∧
    parseDSN pg my "*pq.Driver" dsn = (normalize (pg dsn).1, (pg dsn).2) ∧
    parseDSN pg my "*mysql.MySQLDriver" dsn = (normalize (my dsn).1, (my dsn).2) := by
  refine ⟨?_, by simp [parseDSN], by simp [parseDSN]⟩
  unfold parseDSN normalize
  split_ifs <;> rfl

/-! ## Claim theorems: the span lifecycle and the verification harness -/

/-- C2: each traced call of the harness script yields one captured trace
of exactly one span — Ping, Query, Prepare, statement Exec, Begin and
Rollback — and the begin-with-ambient-parent, exec, commit step yields
one trace of exactly three spans, in submission order begin, exec,
commit. -/
theorem harness_one_span_per_call (db : DB) (n : Nat) :
    (allSQLTests db ⟨n, []⟩).map (fun trs => trs.map List.length) =
      [[1], [1], [1], [1], [1], [1], [3]] ∧
    ((allSQLTests db ⟨n, []⟩).map
        (fun trs => trs.map (fun t => t.map Span.resource))).getLast? =
      some [["Begin", txQuery, "Commit"]] := by
  constructor <;>
    simp [allSQLTests, testDB, testStatement, testTransaction, opPing,
      opQuery, opPrepare, opStmtExec, opBegin, opRollback, opBeginTx,
      opExecContext, opCommit, opSpan, startSpan, finishSpan, flushTraces,
      insertSpan, newRootSpan]

/-- C3: across the whole harness script the resource name is the literal
statement text for the query, prepare, exec and transaction-exec spans,
and the fixed labels Ping, Begin, Rollback and Commit for the others. -/
theorem harness_resource_names (db : DB) (n : Nat) :
    (allSQLTests db ⟨n, []⟩).map
        (fun trs => trs.map (fun t => t.map Span.resource)) =
      [[["Ping"]], [[dbQuery]], [[stmtQuery db.name]], [[stmtQuery db.name]],
       [["Begin"]], [["Rollback"]], [["Begin", txQuery, "Commit"]]] := by
  simp [allSQLTests, testDB, testStatement, testTransaction, opPing,
    opQuery, opPrepare, opStmtExec, opBegin, opRollback, opBeginTx,
    opExecContext, opCommit, opSpan, startSpan, finishSpan, flushTraces,
    insertSpan, newRootSpan]

/-- C5: beginning a transaction under an ambient parent span `P`, then
exec and commit on it, produces spans that all carry `P`'s trace
identifier, so the flush captures them as one single trace in submission
order begin, exec, commit. -/
theorem txScenario_single_trace (db : DB) (P : Span) (n : Nat) :
    (txScenario db P ⟨n, []⟩).map
        (fun t => t.map (fun sp => (sp.traceID, sp.resource))) =
      [[(P.traceID, "Begin"), (P.traceID, txQuery), (P.traceID, "Commit")]] := by
  simp [txScenario, opBeginTx, opExecContext, opCommit, opSpan, startSpan,
    finishSpan, flushTraces, insertSpan]

/-- C6: executing a Traced Statement produces a span whose resource name
and `sql.query` metadata tag are the original prepared statement text,
and the result is independent of the arguments supplied at execution
time. -/
theorem stmtExec_uses_prepared_text (db : DB) (stmt : Stmt)
    (args1 args2 : List String) (s : TracerState) (n : Nat) :
    opStmtExec db stmt args1 s = opStmtExec db stmt args2 s ∧
    (opStmtExec db stmt args1 ⟨n, []⟩).buffer.map
        (fun sp => (sp.resource, mapGet sp.meta "sql.query")) =
      [(stmt.query, some stmt.query)] := by
  refine ⟨rfl, ?_⟩
  simp [opStmtExec, opSpan, startSpan, finishSpan, mapGet_mapSet_self]

/-- C9: the harness's per-step template update removes the `sql.query`
key from the expected template's metadata and leaves every other
metadata key and every other field of the template unchanged. -/
theorem templateStep_frame (tpl : Span) (q k : String)
    (h : k ≠ "sql.query") :
    mapGet (templateStep tpl q).meta "sql.query" = none ∧
    mapGet (templateStep tpl q).meta k = mapGet tpl.meta k ∧
    (templateStep tpl q).name = tpl.name ∧
    (templateStep tpl q).service = tpl.service ∧
    (templateStep tpl q).resource = tpl.resource ∧
    (templateStep tpl q).traceID = tpl.traceID ∧
    (templateStep tpl q).spanID = tpl.spanID ∧
    (templateStep tpl q).parentID = tpl.parentID := by
  refine ⟨?_, ?_, rfl, rfl, rfl, rfl, rfl, rfl⟩
  · exact mapGet_mapDelete_self _ _
  · rw [templateStep]
    rw [mapGet_mapDelete_ne _ _ _ h, mapGet_mapSet_ne _ _ _ _ h]

/-- Witness for C9 on a concrete template and a key other than
`sql.query`. -/
theorem templateStep_frame_witness :
    mapGet (templateStep
        ⟨"pg.query", "svc", "res", [("db.user", "alice")], 1, 2, 0⟩
        "select 1").meta "db.user" =
      mapGet (⟨"pg.query", "svc", "res", [("db.user", "alice")], 1, 2, 0⟩ :
        Span).meta "db.user" :=
  (templateStep_frame
    ⟨"pg.query", "svc", "res", [("db.user", "alice")], 1, 2, 0⟩
    "select 1" "db.user" (by decide)).2.1

end SqlTraced
